import Mathlib

/-!
Shallow embedding of the core of the ubuntu_voice_to_text repository, with
theorems settling the frozen claims about its specification.

Embedded modules (translated from the Python source):
  * src/voice_typing/interfaces/state_manager/basic_state_manager.py
  * src/voice_typing/interfaces/output_action/output_dispatcher.py
  * src/voice_typing/audio_processor.py (process_buffer)
  * src/voice_typing/pipeline/stages.py (AudioBufferingStage loop)
  * src/voice_typing/pipeline/audio_input.py (capture queue overflow policy)
  * src/voice_typing/pipeline/coordinator.py (start_pipeline / stop_pipeline)

Conventions: machine timestamps are modelled as integers; Python dicts used
as metadata are modelled as association lists; opaque Python objects
(listeners, audio chunks, targets) are modelled by identifiers or small
records of the fields the code actually reads; a Python callable that may
raise is modelled by a Bool-valued behaviour parameter (raising or not), and
a method returning a value or raising is modelled by an Option result
(none meaning the call raised).  Observable side effects (listener calls,
text deliveries) are returned as explicit event lists.
-/

namespace VoiceTyping

/-- VoiceTypingState enum from voice_typing_state.py. -/
inductive VTState where
  | idle
  | listening
  | finishListening
  | processing
  | error
deriving DecidableEq, Repr

/-- The valid transition table built in BasicStateManager.__init__
(basic_state_manager.py, `self._valid_transitions`). -/
def validTransitions : VTState → List VTState
  | .idle => [.listening, .error]
  | .listening => [.finishListening, .idle, .error]
  | .finishListening => [.processing, .idle, .error]
  | .processing => [.idle, .error]
  | .error => [.idle]

/-- Metadata dicts are modelled as association lists of string keys/values. -/
abbrev Metadata := List (String × String)

/-- Python dict.update: for each pair of the update, overwrite the key in
the base mapping (last write wins). -/
def dictUpdate (base upd : Metadata) : Metadata :=
  upd.foldl (fun d kv => (d.filter (fun p => p.1 ≠ kv.1)) ++ [kv]) base

/-- StateTransition record from state_transition.py.  The record also stores
a wall-clock timestamp; it is carried here as a field set from the clock
value passed to set_state. -/
structure StateTransition where
  from_state : VTState
  to_state : VTState
  metadata : Metadata
  timestamp : Int
deriving DecidableEq, Repr

/-- Listeners are opaque callables; modelled by identifiers. -/
abbrev ListenerId := Nat

/-- The mutable fields of BasicStateManager. -/
structure BasicStateManager where
  current_state : VTState
  listeners : List ListenerId
  history : List StateTransition
  metadata : Metadata
deriving DecidableEq, Repr

/-- BasicStateManager.can_transition_to: membership of the target state in
the current state's row of the transition table. -/
def can_transition_to (m : BasicStateManager) (s : VTState) : Bool :=
  (validTransitions m.current_state).contains s

/-- BasicStateManager.register_state_listener: Python set.add — the listener
set gains the listener only if not already present. -/
def register_state_listener (m : BasicStateManager) (l : ListenerId) :
    BasicStateManager :=
  if m.listeners.contains l then m
  else { m with listeners := m.listeners ++ [l] }

/-- BasicStateManager._notify_listeners: calls each listener in turn; the
try/except around each call swallows an exception, so a raising listener
(raises l = true) still lets the loop continue with the remaining ones.
The result is the list of invocation events (listener, transition). -/
def notify_listeners (raises : ListenerId → Bool)
    (ls : List ListenerId) (tr : StateTransition) :
    List (ListenerId × StateTransition) :=
  match ls with
  | [] => []
  | l :: rest =>
    -- the call to l happens; if raises l, the exception is caught and logged
    (l, tr) :: notify_listeners raises rest tr

/-- BasicStateManager.set_state.  Returns the boolean result, the updated
manager and the list of listener invocation events.  The clock value used
for the StateTransition timestamp is the parameter now. -/
def set_state (raises : ListenerId → Bool) (m : BasicStateManager)
    (new_state : VTState) (metadata : Option Metadata) (now : Int) :
    Bool × BasicStateManager × List (ListenerId × StateTransition) :=
  if ¬ can_transition_to m new_state then (false, m, [])
  else
    let old_state := m.current_state
    let m1 := { m with current_state := new_state }
    -- "if metadata:" — truthy only for a non-None, non-empty dict
    let m2 :=
      match metadata with
      | some md => if md ≠ [] then { m1 with metadata := dictUpdate m1.metadata md } else m1
      | none => m1
    -- StateTransition(old_state, new_state, metadata); its constructor
    -- replaces a None (or empty) metadata argument with the empty dict
    let tr : StateTransition :=
      ⟨old_state, new_state, metadata.getD [], now⟩
    let m3 := { m2 with history := m2.history ++ [tr] }
    (true, m3, notify_listeners raises m3.listeners tr)

/-- Invoking the listener list produces exactly one event per listener, with
the given transition, independently of which listeners raise. -/
theorem notify_listeners_eq_map (raises : ListenerId → Bool)
    (ls : List ListenerId) (tr : StateTransition) :
    notify_listeners raises ls tr = ls.map (fun l => (l, tr)) := by
  induction ls with
  | nil => rfl
  | cons l rest ih => simp [notify_listeners, ih]

theorem count_pair_map (ls : List ListenerId) (tr : StateTransition)
    (l : ListenerId) :
    (ls.map (fun x => (x, tr))).count (l, tr) = ls.count l := by
  induction ls with
  | nil => rfl
  | cons x rest ih =>
    by_cases hx : x = l
    · subst hx
      simp [List.count_cons, ih]
    · simp [List.count_cons, ih, hx]

end VoiceTyping

namespace VoiceTyping

/-- C2: for every (from, t) pair not in the valid transition table,
set_state called in state from with target t returns false, leaves the
manager (current state, history, metadata, listeners) unchanged and
produces no listener invocation. -/
theorem C2_invalid_transition_rejected (raises : ListenerId → Bool)
    (m : BasicStateManager) (t : VTState) (md : Option Metadata) (now : Int)
    (h : can_transition_to m t = false) :
    set_state raises m t md now = (false, m, []) := by
  simp [set_state, h]

theorem C2_invalid_transition_rejected_witness :
    can_transition_to ⟨.idle, [0, 1], [], []⟩ .processing = false ∧
    set_state (fun _ => false) ⟨.idle, [0, 1], [], []⟩ .processing
      (some [("k", "v")]) 7 = (false, ⟨.idle, [0, 1], [], []⟩, []) :=
  ⟨by decide,
   C2_invalid_transition_rejected (fun _ => false) ⟨.idle, [0, 1], [], []⟩
     .processing (some [("k", "v")]) 7 (by decide)⟩

/-- C3: for every (from, t) pair in the valid transition table, set_state
returns true, the current state afterwards is t, exactly one new
StateTransition (from, t, metadata) is appended to the history, and every
registered listener is invoked exactly once with that transition; a raising
listener is caught and the remaining listeners are still invoked (the event
list does not depend on which listeners raise). -/
theorem C3_valid_transition_commits (raises : ListenerId → Bool)
    (m : BasicStateManager) (t : VTState) (md : Option Metadata) (now : Int)
    (h : can_transition_to m t = true) (hnd : m.listeners.Nodup) :
    (set_state raises m t md now).1 = true ∧
    (set_state raises m t md now).2.1.current_state = t ∧
    (set_state raises m t md now).2.1.history =
      m.history ++ [⟨m.current_state, t, md.getD [], now⟩] ∧
    (set_state raises m t md now).2.2 =
      m.listeners.map (fun l => (l, ⟨m.current_state, t, md.getD [], now⟩)) ∧
    ∀ l ∈ m.listeners,
      (set_state raises m t md now).2.2.count
        (l, ⟨m.current_state, t, md.getD [], now⟩) = 1 := by
  have hcan : can_transition_to m t := h
  refine ⟨?_, ?_, ?_, ?_, ?_⟩
  · simp [set_state, hcan]
  · cases md with
    | none => simp [set_state, hcan]
    | some l =>
      by_cases hl : l = []
      · subst hl; simp [set_state, hcan]
      · simp [set_state, hcan, hl]
  · cases md with
    | none => simp [set_state, hcan]
    | some l =>
      by_cases hl : l = []
      · subst hl; simp [set_state, hcan]
      · simp [set_state, hcan, hl]
  · cases md with
    | none => simp [set_state, hcan, notify_listeners_eq_map]
    | some l =>
      by_cases hl : l = []
      · subst hl; simp [set_state, hcan, notify_listeners_eq_map]
      · simp [set_state, hcan, hl, notify_listeners_eq_map]
  · intro l hl
    have hmap : (set_state raises m t md now).2.2 =
        m.listeners.map (fun x => (x, ⟨m.current_state, t, md.getD [], now⟩)) := by
      cases md with
      | none => simp [set_state, hcan, notify_listeners_eq_map]
      | some l' =>
        by_cases hl' : l' = []
        · subst hl'; simp [set_state, hcan, notify_listeners_eq_map]
        · simp [set_state, hcan, hl', notify_listeners_eq_map]
    rw [hmap, count_pair_map]
    exact List.count_eq_one_of_mem hnd hl

theorem C3_valid_transition_commits_witness :
    can_transition_to ⟨.idle, [3, 5], [], []⟩ .listening = true ∧
    ((set_state (fun l => l == 3) ⟨.idle, [3, 5], [], []⟩ .listening
        (some [("source", "hotkey")]) 11).1 = true ∧
      (set_state (fun l => l == 3) ⟨.idle, [3, 5], [], []⟩ .listening
        (some [("source", "hotkey")]) 11).2.1.current_state = .listening ∧
      (set_state (fun l => l == 3) ⟨.idle, [3, 5], [], []⟩ .listening
        (some [("source", "hotkey")]) 11).2.1.history =
        [] ++ [⟨.idle, .listening, [("source", "hotkey")], 11⟩] ∧
      (set_state (fun l => l == 3) ⟨.idle, [3, 5], [], []⟩ .listening
        (some [("source", "hotkey")]) 11).2.2 =
        [3, 5].map (fun l => (l, ⟨.idle, .listening, [("source", "hotkey")], 11⟩)) ∧
      ∀ l ∈ [3, 5],
        ((set_state (fun l => l == 3) ⟨.idle, [3, 5], [], []⟩ .listening
          (some [("source", "hotkey")]) 11).2.2.count
            (l, ⟨.idle, .listening, [("source", "hotkey")], 11⟩)) = 1) :=
  ⟨by decide,
   C3_valid_transition_commits (fun l => l == 3) ⟨.idle, [3, 5], [], []⟩
     .listening (some [("source", "hotkey")]) 11 (by decide) (by decide)⟩

end VoiceTyping

namespace VoiceTyping

/-!
Section: OutputDispatcher (output_dispatcher.py)

A registered OutputActionTarget is modelled by a record of the fields the
dispatcher reads: an identifier, the (fixed) result of is_available(), and
the behaviour of deliver_text — some b when the call returns b, none when
the call raises (the dispatcher catches the exception).
-/

/-- OutputActionTarget as observed by the dispatcher. -/
structure Target where
  id : Nat
  available : Bool
  deliverResult : Option Bool
deriving DecidableEq, Repr

/-- Metadata dict passed to dispatch_text; values are numeric (timestamps,
confidences), modelled as integers. -/
abbrev DispatchMeta := List (String × Int)

/-- Observable effects of one dispatch_text call: a deliver_text call on a
target, or an event-listener call. -/
inductive DispatchEvent where
  | deliverCall (t : Target) (text : String) (md : DispatchMeta)
  | listenerCall (l : Nat) (text : String) (md : DispatchMeta)
deriving DecidableEq, Repr

/-- The mutable fields of OutputDispatcher. -/
structure OutputDispatcher where
  targets : List Target
  eventListeners : List Nat
  initialized : Bool
deriving DecidableEq, Repr

/-- OutputDispatcher.__init__. -/
def OutputDispatcher.new : OutputDispatcher := ⟨[], [], false⟩

/-- OutputDispatcher.initialize. -/
def OutputDispatcher.initialize (d : OutputDispatcher) : Bool × OutputDispatcher :=
  (true, { d with initialized := true })

/-- OutputDispatcher.add_target: rejects an unavailable target, otherwise
appends it to the target list. -/
def add_target (d : OutputDispatcher) (t : Target) : Bool × OutputDispatcher :=
  if ¬ t.available then (false, d)
  else (true, { d with targets := d.targets ++ [t] })

/-- OutputDispatcher.remove_target: Python list.remove removes the first
occurrence and raises ValueError when the target is absent; the except
branch turns that into a false return. -/
def remove_target (d : OutputDispatcher) (t : Target) : Bool × OutputDispatcher :=
  if d.targets.contains t then (true, { d with targets := d.targets.erase t })
  else (false, d)

/-- The timestamp stamping step of dispatch_text: if the key "timestamp" is
absent from the metadata dict, insert it with the current time. -/
def stampTimestamp (md : DispatchMeta) (now : Int) : DispatchMeta :=
  if md.any (fun p => p.1 == "timestamp") then md
  else md ++ [("timestamp", now)]

/-- The target loop of dispatch_text.  Each iteration checks is_available()
and, when available, calls deliver_text inside a try/except: a raising
target (deliverResult = none) is caught and the loop continues.  Returns
the success count and the deliver-call events in loop order. -/
def targetLoop (text : String) (md : DispatchMeta) :
    List Target → Nat × List DispatchEvent
  | [] => (0, [])
  | t :: rest =>
    let r := targetLoop text md rest
    if t.available then
      match t.deliverResult with
      | some true => (r.1 + 1, .deliverCall t text md :: r.2)
      | some false => (r.1, .deliverCall t text md :: r.2)
      | none => (r.1, .deliverCall t text md :: r.2)
    else r

/-- The listener loop of dispatch_text: each listener is called inside a
try/except, so a raising listener does not stop the loop. -/
def listenerLoop (raises : Nat → Bool) (text : String) (md : DispatchMeta) :
    List Nat → List DispatchEvent
  | [] => []
  | l :: rest =>
    .listenerCall l text md :: listenerLoop raises text md rest

/-- OutputDispatcher.dispatch_text.  The text argument is an Option to model
Python None; "if not text" is falsy for None and for the empty string.
Returns the boolean result and the observable events. -/
def dispatch_text (d : OutputDispatcher) (text : Option String)
    (metadata : Option DispatchMeta) (now : Int) (raises : Nat → Bool) :
    Bool × List DispatchEvent :=
  if ¬ d.initialized then (false, [])
  else
    match text with
    | none => (false, [])
    | some s =>
      if s = "" then (false, [])
      else
        let md := stampTimestamp (metadata.getD []) now
        let tr := targetLoop s md d.targets
        let le := listenerLoop raises s md d.eventListeners
        (decide (0 < tr.1), tr.2 ++ le)

/-- OutputDispatcher.cleanup: calls cleanup on each target (exceptions
caught), clears targets and listeners, and marks the dispatcher
uninitialized.  Returns the new state and the ids of the targets whose
cleanup was called. -/
def OutputDispatcher.cleanup (d : OutputDispatcher) : OutputDispatcher × List Nat :=
  (⟨[], [], false⟩, d.targets.map (fun t => t.id))

theorem targetLoop_events_all_available (text : String) (md : DispatchMeta)
    (ts : List Target) (h : ∀ t ∈ ts, t.available = true) :
    (targetLoop text md ts).2 = ts.map (fun t => .deliverCall t text md) := by
  induction ts with
  | nil => rfl
  | cons t rest ih =>
    have ht : t.available = true := h t (by simp)
    have ihr := ih (fun x hx => h x (by simp [hx]))
    cases hd : t.deliverResult with
    | none => simp [targetLoop, ht, hd, ihr]
    | some b => cases b <;> simp [targetLoop, ht, hd, ihr]

theorem targetLoop_success_iff (text : String) (md : DispatchMeta)
    (ts : List Target) :
    (0 < (targetLoop text md ts).1) ↔
      ∃ t ∈ ts, t.available = true ∧ t.deliverResult = some true := by
  induction ts with
  | nil => simp [targetLoop]
  | cons t rest ih =>
    by_cases ha : t.available = true
    · cases hd : t.deliverResult with
      | none =>
        simp only [targetLoop, ha, if_pos rfl, hd]
        simpa [ha, hd] using ih
      | some b =>
        cases b with
        | true =>
          simp only [targetLoop, ha, if_pos rfl, hd]
          simp [ha, hd]
        | false =>
          simp only [targetLoop, ha, if_pos rfl, hd]
          simpa [ha, hd] using ih
    · have ha' : t.available = false := by
        cases hab : t.available
        · rfl
        · exact absurd hab ha
      simp only [targetLoop, ha']
      simp only [Bool.false_eq_true, if_false]
      simpa [ha'] using ih

theorem listenerLoop_eq_map (raises : Nat → Bool) (text : String)
    (md : DispatchMeta) (ls : List Nat) :
    listenerLoop raises text md ls = ls.map (fun l => .listenerCall l text md) := by
  induction ls with
  | nil => rfl
  | cons l rest ih => simp [listenerLoop, ih]

theorem stampTimestamp_has_timestamp (md : DispatchMeta) (now : Int) :
    (stampTimestamp md now).any (fun p => p.1 == "timestamp") = true := by
  by_cases h : md.any (fun p => p.1 == "timestamp") = true
  · simp [stampTimestamp, h]
  · simp only [stampTimestamp, h, if_neg]
    simp [List.any_append]

theorem count_deliverCall_map (ts : List Target) (text : String)
    (md : DispatchMeta) (t : Target) :
    (ts.map (fun x => DispatchEvent.deliverCall x text md)).count
      (.deliverCall t text md) = ts.count t := by
  induction ts with
  | nil => rfl
  | cons x rest ih =>
    by_cases hx : x = t
    · subst hx
      simp [List.count_cons, ih]
    · simp [List.count_cons, ih, hx]

end VoiceTyping

namespace VoiceTyping

/-- C5: for every non-empty text and every duplicate-free list of registered
(available) targets and registered listeners of an initialized dispatcher,
one dispatch_text call produces exactly one deliver_text call per target
and one notification per listener — with the metadata carrying a timestamp
key — even when some targets or listeners raise; and it returns true iff at
least one target accepted the text. -/
theorem C5_dispatch_fan_out (d : OutputDispatcher) (s : String)
    (metadata : Option DispatchMeta) (now : Int) (raises : Nat → Bool)
    (hinit : d.initialized = true) (hs : s ≠ "")
    (havail : ∀ t ∈ d.targets, t.available = true)
    (hnd : d.targets.Nodup) :
    (dispatch_text d (some s) metadata now raises).2 =
      d.targets.map
        (fun t => .deliverCall t s (stampTimestamp (metadata.getD []) now)) ++
      d.eventListeners.map
        (fun l => .listenerCall l s (stampTimestamp (metadata.getD []) now)) ∧
    (∀ t ∈ d.targets,
      (dispatch_text d (some s) metadata now raises).2.count
        (.deliverCall t s (stampTimestamp (metadata.getD []) now)) = 1) ∧
    (stampTimestamp (metadata.getD []) now).any
      (fun p => p.1 == "timestamp") = true ∧
    ((dispatch_text d (some s) metadata now raises).1 = true ↔
      ∃ t ∈ d.targets, t.available = true ∧ t.deliverResult = some true) := by
  have hev : (dispatch_text d (some s) metadata now raises).2 =
      d.targets.map
        (fun t => .deliverCall t s (stampTimestamp (metadata.getD []) now)) ++
      d.eventListeners.map
        (fun l => .listenerCall l s (stampTimestamp (metadata.getD []) now)) := by
    simp [dispatch_text, hinit, hs,
      targetLoop_events_all_available _ _ _ havail, listenerLoop_eq_map]
  refine ⟨hev, ?_, stampTimestamp_has_timestamp _ _, ?_⟩
  · intro t ht
    rw [hev, List.count_append]
    have hc1 : (d.targets.map
        (fun x => DispatchEvent.deliverCall x s
          (stampTimestamp (metadata.getD []) now))).count
        (.deliverCall t s (stampTimestamp (metadata.getD []) now)) = 1 := by
      rw [count_deliverCall_map]
      exact List.count_eq_one_of_mem hnd ht
    have hc2 : (d.eventListeners.map
        (fun l => DispatchEvent.listenerCall l s
          (stampTimestamp (metadata.getD []) now))).count
        (.deliverCall t s (stampTimestamp (metadata.getD []) now)) = 0 := by
      rw [List.count_eq_zero]
      intro hmem
      rcases List.mem_map.mp hmem with ⟨l, _, hl⟩
      exact DispatchEvent.noConfusion hl
    rw [hc1, hc2]
  · simp only [dispatch_text, hinit, hs]
    simpa using targetLoop_success_iff s (stampTimestamp (metadata.getD []) now) d.targets

theorem C5_dispatch_fan_out_witness :
    ((⟨[⟨0, true, some true⟩, ⟨1, true, none⟩], [4], true⟩ :
        OutputDispatcher).initialized = true ∧
      "hello" ≠ "" ∧
      (∀ t ∈ (⟨[⟨0, true, some true⟩, ⟨1, true, none⟩], [4], true⟩ :
        OutputDispatcher).targets, t.available = true) ∧
      (⟨[⟨0, true, some true⟩, ⟨1, true, none⟩], [4], true⟩ :
        OutputDispatcher).targets.Nodup) ∧
    ((dispatch_text ⟨[⟨0, true, some true⟩, ⟨1, true, none⟩], [4], true⟩
        (some "hello") (some []) 9 (fun _ => true)).2 =
      [.deliverCall ⟨0, true, some true⟩ "hello" [("timestamp", 9)],
       .deliverCall ⟨1, true, none⟩ "hello" [("timestamp", 9)],
       .listenerCall 4 "hello" [("timestamp", 9)]] ∧
      (dispatch_text ⟨[⟨0, true, some true⟩, ⟨1, true, none⟩], [4], true⟩
        (some "hello") (some []) 9 (fun _ => true)).1 = true) := by
  have h := C5_dispatch_fan_out
    ⟨[⟨0, true, some true⟩, ⟨1, true, none⟩], [4], true⟩ "hello" (some []) 9
    (fun _ => true) (by decide) (by decide) (by decide) (by decide)
  refine ⟨⟨by decide, by decide, by decide, by decide⟩, ?_, ?_⟩
  · rw [h.1]; decide
  · exact h.2.2.2.mpr ⟨⟨0, true, some true⟩, by decide, by decide, by decide⟩

/-- C6: dispatching empty (Python falsy "") or absent (None) text returns
false and produces no deliver call and no listener notification, for every
dispatcher state and metadata. -/
theorem C6_dispatch_rejects_empty_text (d : OutputDispatcher)
    (text : Option String) (metadata : Option DispatchMeta) (now : Int)
    (raises : Nat → Bool) (h : text = none ∨ text = some "") :
    dispatch_text d text metadata now raises = (false, []) := by
  rcases h with h | h <;> subst h <;> by_cases hi : d.initialized = true <;>
    simp [dispatch_text, hi]

theorem C6_dispatch_rejects_empty_text_witness :
    ((some "" : Option String) = none ∨ (some "" : Option String) = some "") ∧
    dispatch_text ⟨[⟨0, true, some true⟩], [2], true⟩ (some "")
      (some [("k", 1)]) 5 (fun _ => false) = (false, []) ∧
    dispatch_text ⟨[⟨0, true, some true⟩], [2], true⟩ none
      (some [("k", 1)]) 5 (fun _ => false) = (false, []) :=
  ⟨Or.inr rfl,
   C6_dispatch_rejects_empty_text ⟨[⟨0, true, some true⟩], [2], true⟩
     (some "") (some [("k", 1)]) 5 (fun _ => false) (Or.inr rfl),
   C6_dispatch_rejects_empty_text ⟨[⟨0, true, some true⟩], [2], true⟩
     none (some [("k", 1)]) 5 (fun _ => false) (Or.inl rfl)⟩

/-- C9 counterexample: add_target appends to a list, not a set — adding the
same available target twice registers it twice, and one dispatch_text call
then delivers the text to it twice, so adding an already-registered target
does have an additional effect, contradicting the claim. -/
theorem C9_add_target_duplicate_counterexample :
    (add_target (add_target ⟨[], [], true⟩ ⟨0, true, some true⟩).2
        ⟨0, true, some true⟩).2.targets =
      [⟨0, true, some true⟩, ⟨0, true, some true⟩] ∧
    (dispatch_text (add_target (add_target ⟨[], [], true⟩ ⟨0, true, some true⟩).2
        ⟨0, true, some true⟩).2 (some "hi") (some []) 3 (fun _ => false)).2.count
      (.deliverCall ⟨0, true, some true⟩ "hi" [("timestamp", 3)]) = 2 := by
  constructor
  · decide
  · decide

/-- C9 amended: the dispatcher keeps its sinks in a list.  add_target
appends an available target even when it is already registered (each
registration is delivered to separately), while remove_target of a
non-registered target returns false without raising and leaves the
registered targets unchanged. -/
theorem C9_target_list_semantics (d : OutputDispatcher) (t : Target) :
    (t.available = true →
      add_target d t = (true, { d with targets := d.targets ++ [t] })) ∧
    (¬ t ∈ d.targets →
      remove_target d t = (false, d)) := by
  constructor
  · intro ha
    simp [add_target, ha]
  · intro hm
    simp [remove_target, hm]

theorem C9_target_list_semantics_witness :
    ((⟨1, true, some false⟩ : Target).available = true ∧
      add_target ⟨[⟨1, true, some false⟩], [], true⟩ ⟨1, true, some false⟩ =
        (true, ⟨[⟨1, true, some false⟩, ⟨1, true, some false⟩], [], true⟩)) ∧
    (¬ (⟨2, true, some true⟩ : Target) ∈
        (⟨[⟨1, true, some false⟩], [], true⟩ : OutputDispatcher).targets ∧
      remove_target ⟨[⟨1, true, some false⟩], [], true⟩ ⟨2, true, some true⟩ =
        (false, ⟨[⟨1, true, some false⟩], [], true⟩)) :=
  ⟨⟨by decide,
    (C9_target_list_semantics ⟨[⟨1, true, some false⟩], [], true⟩
      ⟨1, true, some false⟩).1 (by decide)⟩,
   ⟨by decide,
    (C9_target_list_semantics ⟨[⟨1, true, some false⟩], [], true⟩
      ⟨2, true, some true⟩).2 (by decide)⟩⟩

/-- C10: when the dispatcher is not initialized (as after cleanup, which
resets the initialized flag), dispatch_text returns false, no target
receives a deliver call and no listener is notified; and cleanup always
leaves the dispatcher uninitialized. -/
theorem C10_uninitialized_dispatch_rejected (d : OutputDispatcher)
    (text : Option String) (metadata : Option DispatchMeta) (now : Int)
    (raises : Nat → Bool) (h : d.initialized = false) :
    dispatch_text d text metadata now raises = (false, []) ∧
    (OutputDispatcher.cleanup d).1.initialized = false := by
  constructor
  · have : ¬ d.initialized = true := by simp [h]
    simp [dispatch_text, this]
  · rfl

theorem C10_uninitialized_dispatch_rejected_witness :
    ((⟨[⟨0, true, some true⟩], [7], false⟩ :
        OutputDispatcher).initialized = false) ∧
    (dispatch_text ⟨[⟨0, true, some true⟩], [7], false⟩ (some "hello")
        (some []) 2 (fun _ => false) = (false, []) ∧
      (OutputDispatcher.cleanup
        ⟨[⟨0, true, some true⟩], [7], false⟩).1.initialized = false) :=
  ⟨by decide,
   C10_uninitialized_dispatch_rejected ⟨[⟨0, true, some true⟩], [7], false⟩
     (some "hello") (some []) 2 (fun _ => false) (by decide)⟩

end VoiceTyping

namespace VoiceTyping

/-!
Section: AudioProcessor.process_buffer (src/voice_typing/audio_processor.py)

GlobalState.state is a plain string; the recognition source is observed
through is_available() and get_result() (None when no result).  The two
time.time() calls inside one process_buffer invocation are modelled by the
single clock value now.  The second component of the result is the text
passed to type_text, none when nothing was typed.
-/

/-- The AudioProcessor fields read and written by process_buffer, together
with the shared GlobalState.state string. -/
structure AudioProcessorState where
  state : String
  last_text_at : Option Int
  listening_started_at : Option Int
deriving DecidableEq, Repr

/-- A recognition result dict; process_buffer reads only its text entry
(result.get "text", falsy when empty). -/
structure RecResult where
  text : String
deriving DecidableEq, Repr

/-- AudioProcessor.process_buffer.  Mirrors the source line by line: return
early when the recognition source is unavailable; feed the chunks; return
early when get_result() is None; on non-empty text set last_text_at and
type the text; then the inactivity checks — for state "listening" (with
listening_started_at not None) the reference time is last_text_at when
truthy else listening_started_at, and the state becomes "idle" when more
than 5 seconds have passed; otherwise for state "finish_listening" with
last_text_at not None and more than 5 seconds since it, the state becomes
"idle". -/
def process_buffer (p : AudioProcessorState) (available : Bool)
    (result : Option RecResult) (now : Int) :
    AudioProcessorState × Option String :=
  if ¬ available then (p, none)
  else
    match result with
    | none => (p, none)
    | some r =>
      let typed : Option String := if r.text ≠ "" then some r.text else none
      let p1 := if r.text ≠ "" then { p with last_text_at := some now } else p
      -- reference time: "self.last_text_at if self.last_text_at else
      -- self.listening_started_at" (Python truthiness: None and 0 are falsy)
      let ref : Int :=
        match p1.last_text_at with
        | some tv => if tv ≠ 0 then tv else p1.listening_started_at.getD 0
        | none => p1.listening_started_at.getD 0
      if p1.state = "listening" ∧ p1.listening_started_at.isSome then
        if now - ref > 5 then ({ p1 with state := "idle" }, typed)
        else (p1, typed)
      else if p1.state = "finish_listening" ∧ p1.last_text_at.isSome ∧
          now - p1.last_text_at.getD 0 > 5 then
        ({ p1 with state := "idle" }, typed)
      else (p1, typed)

/-- C1: the code returns from process_buffer before the inactivity check
whenever get_result() is None, so with state "listening", a listening
start 9 seconds in the past and no text ever received, processing a buffer
with no recognition result leaves the state "listening" — although the
5-second deadline has passed, and although the same call with an (empty)
result present does transition the state to "idle".  This contradicts the
claim and the repository's own regression test
(test_inactivity_timeout_with_no_recognition_result), which demands the
timeout even without recognition results. -/
theorem C1_timeout_skipped_without_result :
    process_buffer ⟨"listening", none, some 1⟩ true none 10 =
      (⟨"listening", none, some 1⟩, none) ∧
    (10 : Int) - 1 > 5 ∧
    process_buffer ⟨"listening", none, some 1⟩ true (some ⟨""⟩) 10 =
      (⟨"idle", none, some 1⟩, none) := by
  refine ⟨by decide, by decide, by decide⟩

end VoiceTyping

namespace VoiceTyping

/-!
Section: Capture overflow policy (src/voice_typing/pipeline/audio_input.py)

The sounddevice callback enqueues each chunk with put_nowait; on
queue.Full it removes the oldest entry with get_nowait and then enqueues
the newest.  The bounded queue is modelled as a list (front = oldest) with
its capacity; chunks are opaque identifiers.
-/

/-- One audio_callback invocation pushing one chunk into the bounded
audio queue. -/
def push_chunk (cap : Nat) (q : List Nat) (c : Nat) : List Nat :=
  if q.length < cap then q ++ [c]
  else q.drop 1 ++ [c]

/-- A sequence of audio_callback invocations while the consumer thread is
paused (nothing dequeues). -/
def push_chunks (cap : Nat) (q : List Nat) (cs : List Nat) : List Nat :=
  cs.foldl (push_chunk cap) q

theorem push_chunks_eq_drop (cap : Nat) (hcap : 0 < cap) :
    ∀ (cs q : List Nat), q.length ≤ cap →
      push_chunks cap q cs = (q ++ cs).drop (q.length + cs.length - cap) := by
  intro cs
  induction cs with
  | nil =>
    intro q hq
    have h0 : q.length + ([] : List Nat).length - cap = 0 := by
      simp only [List.length_nil, Nat.add_zero]
      omega
    rw [h0]
    simp [push_chunks]
  | cons c rest ih =>
    intro q hq
    by_cases hlt : q.length < cap
    · have hq1 : (q ++ [c]).length ≤ cap := by
        simp only [List.length_append, List.length_cons, List.length_nil]
        omega
      have hstep : push_chunks cap q (c :: rest) =
          push_chunks cap (q ++ [c]) rest := by
        simp [push_chunks, push_chunk, hlt]
      rw [hstep, ih (q ++ [c]) hq1]
      have harr : (q ++ [c]) ++ rest = q ++ c :: rest := by simp
      have hnum : (q ++ [c]).length + rest.length - cap
          = q.length + (c :: rest).length - cap := by
        simp only [List.length_append, List.length_cons, List.length_nil]
        omega
      rw [harr, hnum]
    · have hqe : q.length = cap := Nat.le_antisymm hq (Nat.le_of_not_lt hlt)
      have hne : q ≠ [] := by
        intro h
        subst h
        simp only [List.length_nil] at hqe
        omega
      obtain ⟨x, q', rfl⟩ := List.exists_cons_of_ne_nil hne
      have hnlt : ¬ q'.length + 1 < cap := by
        simp only [List.length_cons] at hlt
        exact hlt
      have hstep : push_chunks cap (x :: q') (c :: rest)
          = push_chunks cap (q' ++ [c]) rest := by
        simp [push_chunks, push_chunk, hnlt]
      simp only [List.length_cons] at hqe
      have hlen : (q' ++ [c]).length = cap := by
        simp only [List.length_append, List.length_cons, List.length_nil]
        omega
      rw [hstep, ih (q' ++ [c]) (le_of_eq hlen)]
      have h1 : (q' ++ [c]) ++ rest = q' ++ c :: rest := by simp
      have h2 : (q' ++ [c]).length + rest.length - cap = rest.length := by
        rw [hlen]
        omega
      have h3 : (x :: q').length + (c :: rest).length - cap = rest.length + 1 := by
        simp only [List.length_cons]
        omega
      rw [h1, h2, h3]
      have h4 : ((x :: q') ++ c :: rest) = x :: (q' ++ c :: rest) := rfl
      rw [h4, List.drop_succ_cons]

/-- C8: while the consumer is paused, the capture audio queue never exceeds
its capacity at any point of the push sequence, and after pushing the
chunk sequence the queue holds exactly the most recent min(length, cap)
chunks — in particular, after more pushes than the capacity, exactly the
last cap chunks, the oldest having been dropped to admit each newest. -/
theorem C8_capture_overflow_keeps_most_recent (cap : Nat) (cs : List Nat)
    (hcap : 0 < cap) :
    push_chunks cap [] cs = cs.drop (cs.length - cap) ∧
    (push_chunks cap [] cs).length = min cs.length cap ∧
    ∀ n : Nat, (push_chunks cap [] (cs.take n)).length ≤ cap := by
  have hmain : ∀ l : List Nat, push_chunks cap [] l = l.drop (l.length - cap) := by
    intro l
    have := push_chunks_eq_drop cap hcap l [] (by simp)
    simpa using this
  refine ⟨hmain cs, ?_, ?_⟩
  · rw [hmain cs, List.length_drop]
    omega
  · intro n
    rw [hmain (cs.take n), List.length_drop]
    omega

theorem C8_capture_overflow_keeps_most_recent_witness :
    0 < 2 ∧
    (push_chunks 2 [] [10, 11, 12, 13] = [12, 13] ∧
      (push_chunks 2 [] [10, 11, 12, 13]).length = min 4 2 ∧
      ∀ n : Nat, (push_chunks 2 [] ([10, 11, 12, 13].take n)).length ≤ 2) := by
  have h := C8_capture_overflow_keeps_most_recent 2 [10, 11, 12, 13] (by decide)
  exact ⟨by decide, by simpa using h.1, by simpa using h.2.1, h.2.2⟩

end VoiceTyping

namespace VoiceTyping

/-!
Section: AudioBufferingStage (src/voice_typing/pipeline/stages.py)

The buffering loop waits for the next chunk with a 0.1s timeout.  A chunk
event appends to the accumulator and flushes when the accumulator has
reached buffer_size; a timeout event flushes a non-empty accumulator.
Emitted AudioBuffers are collected in push order.
-/

/-- One iteration input of the buffering loop: a dequeued chunk, or an
asyncio.TimeoutError from the 0.1s wait. -/
inductive BufEvent where
  | chunk (c : Nat)
  | timeout
deriving DecidableEq, Repr

/-- The accumulator (self._buffer) and the AudioBuffers emitted so far to
the output queue. -/
structure BufState where
  buffer : List Nat
  emitted : List (List Nat)
deriving DecidableEq, Repr

/-- One iteration of AudioBufferingStage._buffering_loop. -/
def buffering_step (bufferSize : Nat) (st : BufState) (e : BufEvent) : BufState :=
  match e with
  | .chunk c =>
    let buf := st.buffer ++ [c]
    if bufferSize ≤ buf.length then ⟨[], st.emitted ++ [buf]⟩
    else ⟨buf, st.emitted⟩
  | .timeout =>
    if st.buffer ≠ [] then ⟨[], st.emitted ++ [st.buffer]⟩
    else st

/-- Running the buffering loop from the initial empty state over a sequence
of events. -/
def run_buffering (bufferSize : Nat) (events : List BufEvent) : BufState :=
  events.foldl (buffering_step bufferSize) ⟨[], []⟩

theorem run_buffering_chunks_invariant (K : Nat) (hK : 0 < K) :
    ∀ (cs : List Nat) (buf : List Nat) (em : List (List Nat)),
      buf.length < K →
      (List.foldl (buffering_step K) ⟨buf, em⟩ (cs.map BufEvent.chunk)).emitted.length
          = em.length + (buf.length + cs.length) / K ∧
      (List.foldl (buffering_step K) ⟨buf, em⟩ (cs.map BufEvent.chunk)).buffer.length
          = (buf.length + cs.length) % K ∧
      (List.foldl (buffering_step K) ⟨buf, em⟩ (cs.map BufEvent.chunk)).emitted.flatten ++
        (List.foldl (buffering_step K) ⟨buf, em⟩ (cs.map BufEvent.chunk)).buffer
          = em.flatten ++ buf ++ cs ∧
      (∀ b ∈ (List.foldl (buffering_step K) ⟨buf, em⟩ (cs.map BufEvent.chunk)).emitted,
        b ∈ em ∨ b.length = K) := by
  intro cs
  induction cs with
  | nil =>
    intro buf em hbuf
    refine ⟨?_, ?_, ?_, ?_⟩
    · simp [Nat.div_eq_of_lt hbuf]
    · simp [Nat.mod_eq_of_lt hbuf]
    · simp
    · intro b hb
      exact Or.inl hb
  | cons c rest ih =>
    intro buf em hbuf
    by_cases hfull : K ≤ buf.length + 1
    · have hstep : List.foldl (buffering_step K) ⟨buf, em⟩
            ((c :: rest).map BufEvent.chunk)
          = List.foldl (buffering_step K) ⟨[], em ++ [buf ++ [c]]⟩
            (rest.map BufEvent.chunk) := by
        simp [buffering_step, hfull]
      obtain ⟨ih1, ih2, ih3, ih4⟩ := ih [] (em ++ [buf ++ [c]]) hK
      have e1 : buf.length + (rest.length + 1) = rest.length + K := by omega
      refine ⟨?_, ?_, ?_, ?_⟩
      · rw [hstep, ih1]
        simp only [List.length_append, List.length_cons, List.length_nil,
          Nat.zero_add, Nat.add_zero]
        rw [e1, Nat.add_div_right _ hK]
        omega
      · rw [hstep, ih2]
        simp only [List.length_nil, List.length_cons, Nat.zero_add]
        rw [e1, Nat.add_mod_right]
      · rw [hstep, ih3]
        simp
      · rw [hstep]
        intro b hb
        rcases ih4 b hb with hmem | hlenb
        · rcases List.mem_append.mp hmem with h | h
          · exact Or.inl h
          · right
            have hbc : b = buf ++ [c] := by simpa using h
            subst hbc
            simp only [List.length_append, List.length_cons, List.length_nil]
            omega
        · exact Or.inr hlenb
    · have hstep : List.foldl (buffering_step K) ⟨buf, em⟩
            ((c :: rest).map BufEvent.chunk)
          = List.foldl (buffering_step K) ⟨buf ++ [c], em⟩
            (rest.map BufEvent.chunk) := by
        simp [buffering_step, hfull]
      obtain ⟨ih1, ih2, ih3, ih4⟩ := ih (buf ++ [c]) em
        (by simp only [List.length_append, List.length_cons, List.length_nil]; omega)
      refine ⟨?_, ?_, ?_, ?_⟩
      · rw [hstep, ih1]
        simp only [List.length_append, List.length_cons, List.length_nil]
        congr 1
        congr 1
        omega
      · rw [hstep, ih2]
        simp only [List.length_append, List.length_cons, List.length_nil]
        congr 1
        omega
      · rw [hstep, ih3]
        simp
      · rw [hstep]
        exact ih4

/-- C7 counterexample: one chunk fed with buffer_size 2 and no timeout
flush emits no AudioBuffer at all (the chunk stays in the accumulator),
while the claim demands ceil(1/2) = 1 emitted buffers whose concatenation
is the input. -/
theorem C7_ceil_count_counterexample :
    (run_buffering 2 [BufEvent.chunk 0]).emitted.length = 0 ∧
    (1 + 2 - 1) / 2 = 1 ∧
    run_buffering 2 [BufEvent.chunk 0] = ⟨[0], []⟩ := by
  refine ⟨by decide, by decide, by decide⟩

/-- C7 amended: a sequence of N chunks fed through the buffering stage with
buffer_size K and no timeout-triggered flush emits exactly floor(N/K)
AudioBuffers, each holding exactly K consecutive chunks in original push
order; the remaining N mod K chunks stay in the accumulator, so the
concatenation of the emitted buffers followed by the accumulator equals
the input sequence (when K divides N this is ceil(N/K) buffers whose
concatenation is the whole input). -/
theorem C7_buffering_round_trip (K : Nat) (cs : List Nat) (hK : 0 < K) :
    (run_buffering K (cs.map BufEvent.chunk)).emitted.length = cs.length / K ∧
    (∀ b ∈ (run_buffering K (cs.map BufEvent.chunk)).emitted, b.length = K) ∧
    (run_buffering K (cs.map BufEvent.chunk)).emitted.flatten ++
      (run_buffering K (cs.map BufEvent.chunk)).buffer = cs ∧
    (run_buffering K (cs.map BufEvent.chunk)).buffer.length = cs.length % K := by
  obtain ⟨h1, h2, h3, h4⟩ := run_buffering_chunks_invariant K hK cs [] [] hK
  refine ⟨?_, ?_, ?_, ?_⟩
  · simpa [run_buffering] using h1
  · intro b hb
    rcases h4 b (by simpa [run_buffering] using hb) with hmem | hlenb
    · simp at hmem
    · exact hlenb
  · simpa [run_buffering] using h3
  · simpa [run_buffering] using h2

theorem C7_buffering_round_trip_witness :
    0 < 2 ∧
    ((run_buffering 2 ([5, 6, 7].map BufEvent.chunk)).emitted.length = 3 / 2 ∧
      (∀ b ∈ (run_buffering 2 ([5, 6, 7].map BufEvent.chunk)).emitted,
        b.length = 2) ∧
      (run_buffering 2 ([5, 6, 7].map BufEvent.chunk)).emitted.flatten ++
        (run_buffering 2 ([5, 6, 7].map BufEvent.chunk)).buffer = [5, 6, 7] ∧
      (run_buffering 2 ([5, 6, 7].map BufEvent.chunk)).buffer.length = 3 % 2) :=
  ⟨by decide, C7_buffering_round_trip 2 [5, 6, 7] (by decide)⟩

end VoiceTyping

namespace VoiceTyping

/-!
Section: AudioPipelineCoordinator (src/voice_typing/pipeline/coordinator.py)

Modelled after initialize has wired the three stages (so the stage
references are all set).  The environment fixes the conditions each
stage's start() checks: audio-device availability and the result of
start_capture for the capture stage, queue wiring for the buffering stage,
and queue wiring plus source availability for the recognition stage.
-/

/-- External conditions read by the stages' start() methods. -/
structure PipelineEnv where
  audioAvailable : Bool
  captureStartOk : Bool
  bufferingQueuesSet : Bool
  recognitionQueueSet : Bool
  recognitionAvailable : Bool
deriving DecidableEq, Repr

/-- The _running flags of the three stages and of the coordinator. -/
structure CoordinatorState where
  captureRunning : Bool
  bufferingRunning : Bool
  recognitionRunning : Bool
  running : Bool
deriving DecidableEq, Repr

/-- AudioCaptureStage.start: true if already running; false when the audio
input is unavailable or start_capture fails; otherwise sets _running. -/
def captureStart (env : PipelineEnv) (r : Bool) : Bool × Bool :=
  if r then (true, r)
  else if ¬ env.audioAvailable then (false, false)
  else if env.captureStartOk then (true, true)
  else (false, false)

/-- AudioBufferingStage.start: true if already running; false when a queue
is missing; otherwise sets _running and spawns the loop task. -/
def bufferingStart (env : PipelineEnv) (r : Bool) : Bool × Bool :=
  if r then (true, r)
  else if ¬ env.bufferingQueuesSet then (false, false)
  else (true, true)

/-- RecognitionStage.start: true if already running; false when the input
queue is missing or the recognition source is unavailable; otherwise sets
_running and spawns the loop task. -/
def recognitionStart (env : PipelineEnv) (r : Bool) : Bool × Bool :=
  if r then (true, r)
  else if ¬ env.recognitionQueueSet then (false, false)
  else if env.recognitionAvailable then (true, true)
  else (false, false)

/-- AudioPipelineCoordinator.stop_pipeline: returns immediately when the
coordinator flag _running is false; otherwise clears it and stops capture,
buffering and recognition (each stage stop clears its _running flag). -/
def stop_pipeline (c : CoordinatorState) : CoordinatorState :=
  if ¬ c.running then c
  else ⟨false, false, false, false⟩

/-- AudioPipelineCoordinator.start_pipeline: true if already running;
otherwise Python evaluates the three start() calls (recognition, then
buffering, then capture — all three are awaited regardless of individual
failures, list evaluation does not short-circuit); on all-true it sets
_running, otherwise it calls stop_pipeline() on the updated state and
returns false. -/
def start_pipeline (env : PipelineEnv) (c : CoordinatorState) :
    Bool × CoordinatorState :=
  if c.running then (true, c)
  else
    let rec1 := recognitionStart env c.recognitionRunning
    let buf1 := bufferingStart env c.bufferingRunning
    let cap1 := captureStart env c.captureRunning
    let c1 : CoordinatorState :=
      { c with recognitionRunning := rec1.2, bufferingRunning := buf1.2,
               captureRunning := cap1.2 }
    if rec1.1 && buf1.1 && cap1.1 then (true, { c1 with running := true })
    else (false, stop_pipeline c1)

/-- C4: with the audio device unavailable but buffering and recognition
able to start, start_pipeline from the stopped state returns false — but
the recognition and buffering stages are left running: the cleanup call to
stop_pipeline returns immediately because the coordinator flag _running is
still false, so stages that did start are never stopped, contradicting the
claim (and the code's own comment that failed starts stop the stages that
did start). -/
theorem C4_partial_start_leaks :
    start_pipeline ⟨false, false, true, true, true⟩ ⟨false, false, false, false⟩ =
      (false, ⟨false, true, true, false⟩) ∧
    (start_pipeline ⟨false, false, true, true, true⟩
      ⟨false, false, false, false⟩).2.bufferingRunning = true ∧
    (start_pipeline ⟨false, false, true, true, true⟩
      ⟨false, false, false, false⟩).2.recognitionRunning = true := by
  refine ⟨by decide, by decide, by decide⟩

end VoiceTyping
